import Mathlib

/-!
Shallow embedding of `plot.py` from fabiocarrara/motion-features.

The script is a CLI reporting tool: it globs run directories, dispatches on a
positional `type` argument to one of five analysis functions
(`train_plot`, `confusion_plot`, `display_status`, `offset_eval`, `ablation`),
and produces plots (PDF files), CSV files or stdout tables.

External collaborators (`get_run_info`, `load_run`, `get_run_summary` from
`utils`, the file system seen by `glob2.glob`) are modelled as fields of an
abstract environment `Env`.  The observable behaviour of the script (files
saved, tables written or printed) is modelled as a list of `Effect`s, and every
operation that can raise a Python exception is `Except String`-valued, so an
unhandled exception is an `Except.error` result.

Real-valued tensor entries are modelled as rationals; `F.softmax` uses the real
exponential, which has no computable rational counterpart, so the environment
carries a stand-in `exp : Rat → Rat` and `softmax` keeps the exact
normalisation structure of the library call.  CUDA transfers, `Variable`
wrapping and `tqdm` do not change values and are modelled as identities.
-/

/-- A file-system path, as its list of components (separators abstracted). -/
abbrev FPath := List String

/-- A run directory, as produced by `os.path.dirname` on a matched log file. -/
abbrev Run := FPath

/-- A model input batch (an opaque tensor). -/
abbrev Input := List Rat

/-- A logits tensor of shape (batch, classes): one row of class scores per
sample in the batch. -/
abbrev Logits := List (List Rat)

/-- A model maps an input batch to its logits. -/
abbrev Model := Input → Logits

/-- The tuple returned by `utils.get_run_info`:
`(run_dir, loss, accuracy, label, best_model, params)`; of `params` the script
only reads `params['cuda']`. -/
structure RunInfo where
  run_dir : FPath
  loss : List Rat
  accuracy : List Rat
  label : String
  best_model : String
  params_cuda : Bool
deriving DecidableEq

/-- The data loader returned by `utils.load_run`: iterating it yields `(x, y)`
batches; its `dataset` exposes `len(dataset)`, `dataset.skip` and
`dataset.action_descriptions`. -/
structure Loader where
  batches : List (Input × List Nat)
  dataset_len : Nat
  skip : Nat
  action_descriptions : List String

/-- One row of the summary DataFrame built by `utils.get_run_summary`: the
script reads the columns `best_acc`, `multi_offset_acc` and the four ablation
hyper-parameters `bidirectional`, `embed`, `hd`, `layers`. -/
structure Summary where
  label : String
  best_acc : Rat
  multi_offset_acc : Rat
  bidirectional : Rat
  embed : Rat
  hd : Rat
  layers : Rat
deriving DecidableEq

/-- The abstract environment: the file system and the external collaborators
imported from `utils`, plus the rational stand-in for the exponential used by
`F.softmax`. -/
structure Env where
  files : List FPath
  exp : Rat → Rat
  get_run_info : Run → Except String RunInfo
  load_run : Run → Option String → Option String → Except String (RunInfo × Model × Loader)
  get_run_summary : RunInfo → Option Rat → Except String Summary

/-- The parsed command-line arguments of the script. -/
structure Args where
  type : String
  run_dir : String
  data : Option String
  output : Option String

/-- An observable side effect of the script: a saved PDF, a written CSV file,
or a table printed to stdout. -/
inductive Effect where
  | saveTrainPDF (fname : String) (lossCurves accCurves : List (List Rat))
      (labels : List String) (ylim : Rat × Rat)
  | saveConfusionPDF (path : FPath) (label : String) (overall_accuracy : Rat)
      (matrix : List (List Nat))
  | writeCSV (path : String) (rows : List Summary)
  | printTable (rows : List Summary)
  | printPivot (param : String) (table : List (Rat × Rat))
deriving DecidableEq

/-- Structural `mapM` over `Except String`, the shape of the script's list
comprehensions and `for` loops over runs. -/
def mapE (f : α → Except String β) : List α → Except String (List β)
  | [] => .ok []
  | a :: as => do
    let b ← f a
    let bs ← mapE f as
    pure (b :: bs)

/-- Python truthiness of an `-o (--output)` value: `None` and the empty string
are falsy (`if args.output:`). -/
def py_truthy : Option String → Bool
  | none => false
  | some s => decide (s ≠ "")

/-- The `choices` list of the positional `type` argument. -/
def type_choices : List String := ["train", "confusion", "status", "multi-eval", "ablation"]

/-- Argparse validation of the positional `type` argument: any value outside
`choices` is rejected. -/
def parse_type (s : String) : Option String :=
  if s ∈ type_choices then some s else none

/-- Argparse handling of the optional positional `run_dir`
(`nargs='?', default='runs/'`). -/
def parse_run_dir (o : Option String) : String := o.getD "runs/"

/-- Split a character list at every `'/'` (the splitting core of
`str.split('/')`). -/
def splitSlashAux : List Char → List Char → List String
  | [], acc => [String.mk acc.reverse]
  | c :: cs, acc =>
    if c = '/' then String.mk acc.reverse :: splitSlashAux cs []
    else splitSlashAux cs (c :: acc)

/-- Split a path string given on the command line into its non-empty
components. -/
def pathComponents (s : String) : List String :=
  (splitSlashAux s.data []).filter (fun c => decide (c ≠ ""))

/-- Whether a file path matches the recursive glob pattern
`os.path.join(run_dir, '**/log.txt')`: the run directory's components are a
proper prefix and the file's base name is `log.txt` (`**` matches zero or more
intermediate directories). -/
def matches_log_glob (rd : FPath) (p : FPath) : Bool :=
  rd.isPrefixOf p && decide (rd.length < p.length) && decide (p.getLast? = some "log.txt")

/-- `glob2.glob(os.path.join(args.run_dir, '**/log.txt'))` over the abstract
file system. -/
def glob_log (files : List FPath) (run_dir : String) : List FPath :=
  files.filter (matches_log_glob (pathComponents run_dir))

/-- `os.path.dirname` on a matched log path: drop the last component. -/
def os_path_dirname (p : FPath) : FPath := p.dropLast

/-- The run directories processed by `main`:
`runs = [os.path.dirname(l) for l in logs]`. -/
def runs_of (env : Env) (args : Args) : List Run :=
  (glob_log env.files args.run_dir).map os_path_dirname

/-- `pandas.sort_values(col, ascending=False)`: sort rows by a key, largest
first. -/
def sort_values_desc (key : α → Rat) (l : List α) : List α :=
  @List.insertionSort α (fun a b => key b ≤ key a)
    (fun a b => inferInstanceAs (Decidable (key b ≤ key a))) l

/-- `numpy.unique`: the distinct values, sorted ascending. -/
def np_unique (l : List Nat) : List Nat :=
  @List.insertionSort Nat (fun a b => a ≤ b) (fun a b => Nat.decLe a b) l.dedup

/-- `sklearn.metrics.accuracy_score`: the fraction of positions where the two
label sequences agree; raises on inconsistent lengths. -/
def accuracy_score (y_true y_pred : List Nat) : Except String Rat :=
  if y_true.length = y_pred.length then
    .ok ((((y_true.zip y_pred).filter (fun q => decide (q.1 = q.2))).length : Rat)
      / (y_true.length : Rat))
  else .error "Found input variables with inconsistent numbers of samples"

/-- `sklearn.metrics.confusion_matrix`: rows indexed by true label, columns by
predicted label, over the sorted distinct labels occurring in either sequence;
raises on inconsistent lengths. -/
def confusion_matrix (y_true y_pred : List Nat) : Except String (List (List Nat)) :=
  if y_true.length = y_pred.length then
    let labels := np_unique (y_true ++ y_pred)
    .ok (labels.map (fun i => labels.map (fun j =>
      ((y_true.zip y_pred).filter (fun q => decide (q.1 = i) && decide (q.2 = j))).length)))
  else .error "Found input variables with inconsistent numbers of samples"

/-- `F.softmax` on one row of logits, with the environment's stand-in for the
exponential: exponentiate, then normalise by the sum. -/
def softmaxRow (e : Rat → Rat) (row : List Rat) : List Rat :=
  let exps := row.map e
  exps.map (fun v => v / exps.sum)

/-- `F.softmax(logits, dim=1)`: softmax of every row of the logits matrix. -/
def softmax_dim1 (e : Rat → Rat) (m : List (List Rat)) : List (List Rat) :=
  m.map (softmaxRow e)

/-- Index of the first maximal entry of a row, starting from a current best
(`torch.max(-, 1)` / `np.argmax` tie-breaking). -/
def argmaxAux : List Rat → Nat → Nat → Rat → Nat
  | [], _, bi, _ => bi
  | v :: vs, i, bi, bv => if bv < v then argmaxAux vs (i + 1) i v else argmaxAux vs (i + 1) bi bv

/-- Index of the first maximal entry of a row. -/
def argmaxRow : List Rat → Nat
  | [] => 0
  | v :: vs => argmaxAux vs 1 0 v

/-- `torch.max(logits, 1)` indices / `np.argmax(-, axis=1)`: per-row argmax of
a matrix. -/
def argmax_dim1 (m : List (List Rat)) : List Nat := m.map argmaxRow

/-- The `predict` loop of `plot.py`: for every `(x, y)` batch yielded by the
loader it appends `y.data[0]` to `targets`, the first entry of
`torch.max(model(x), 1)`'s indices to `predictions`, and the full
`F.softmax(logits, dim=1)` array to `confidences`.  CUDA transfers and
`Variable` wrapping do not change the values and are dropped. -/
def predict (e : Rat → Rat) (model : Model) (loader : Loader) (_cuda : Bool) :
    List Nat × List Nat × List (List (List Rat)) :=
  loader.batches.foldl
    (fun acc b =>
      let logits := model b.1
      let confidence := softmax_dim1 e logits
      let y_hat := argmax_dim1 logits
      (acc.1 ++ [y_hat.headD 0], acc.2.1 ++ [b.2.headD 0], acc.2.2 ++ [confidence]))
    ([], [], [])

/-- `pandas.concat(frames, ignore_index=True)` over one-row frames: raises on
an empty list of objects. -/
def pd_concat (frames : List Summary) : Except String (List Summary) :=
  if frames.isEmpty then .error "No objects to concatenate" else .ok frames

/-- `numpy.concatenate(confidences, axis=0)`: stack the per-batch confidence
matrices into one matrix with one row per sample. -/
def np_concatenate (confs : List (List (List Rat))) : List (List Rat) := confs.flatten

/-- Elementwise sum of two equal-length rows. -/
def vec_add (a b : List Rat) : List Rat := List.zipWith (· + ·) a b

/-- `numpy.mean(axis=0)` of a stack of equal-length rows: their elementwise
mean. -/
def np_mean_rows : List (List Rat) → List Rat
  | [] => []
  | r :: rs => (rs.foldl vec_add r).map (fun v => v / ((rs.length + 1 : Nat) : Rat))

/-- `confidences.reshape(skip, n, -1).mean(axis=0)` on a stacked confidence
matrix, in row-major (C) order on the flattened data as numpy does it: infer
the last dimension `c` from the total number of scalars, view the flat data as
a `skip × n × c` array, and average over the first axis; raises when the
inference fails (`skip * n` is zero or does not divide the size). -/
def reshape_mean0 (skip n : Nat) (conf : List (List Rat)) : Except String (List (List Rat)) :=
  let flat := conf.flatten
  let total := flat.length
  if skip * n ≠ 0 ∧ total % (skip * n) = 0 then
    let c := total / (skip * n)
    .ok ((List.range n).map (fun j =>
      np_mean_rows ((List.range skip).map (fun i => (flat.drop ((i * n + j) * c)).take c))))
  else .error "cannot reshape array"

/-- The per-run numeric core of `offset_eval`:
`n_samples = len(dataset) // dataset.skip`; truncate the targets to
`n_samples`; stack the per-batch confidences, reshape them to
`(skip, n_samples, -1)` and average over the first axis; predict by per-row
argmax; score with `accuracy_score` against the truncated targets. -/
def multi_offset_accuracy (skip dataset_len : Nat) (targets : List Nat)
    (confidences : List (List (List Rat))) : Except String Rat := do
  let n_samples := dataset_len / skip
  let targets := targets.take n_samples
  let conf ← reshape_mean0 skip n_samples (np_concatenate confidences)
  let predictions := argmax_dim1 conf
  accuracy_score targets predictions

/-- The list `['bidirectional', 'embed', 'hd', 'layers']` of `ablation`. -/
def ablation_params : List String := ["bidirectional", "embed", "hd", "layers"]

/-- Read one of the four ablation hyper-parameter columns of a summary row by
its name. -/
def getParam (p : String) (s : Summary) : Rat :=
  if p = "bidirectional" then s.bidirectional
  else if p = "embed" then s.embed
  else if p = "hd" then s.hd
  else s.layers

/-- Arithmetic mean of a list of rationals. -/
def qmean (xs : List Rat) : Rat := xs.sum / (xs.length : Rat)

/-- Ascending sort of rationals (pandas sorts pivot columns ascending). -/
def sortAscQ (l : List Rat) : List Rat :=
  @List.insertionSort Rat (fun a b => a ≤ b) (fun a b => Rat.instDecidableLe a b) l

/-- `summary.pivot_table(values='best_acc', columns=p, index=rest).mean()`:
for every value `v` of column `p`, the pivot table has one cell per combination
of the remaining hyper-parameters that occurs together with `v`, holding the
mean `best_acc` of that group; `.mean()` then averages the existing cells of
the `v` column. -/
def pivot_table_mean (p : String) (rows : List Summary) : List (Rat × Rat) :=
  let rest := ablation_params.filter (fun q => decide (q ≠ p))
  let restKey := fun (s : Summary) => rest.map (fun q => getParam q s)
  let pvals := sortAscQ ((rows.map (getParam p)).dedup)
  pvals.map (fun v =>
    let group := rows.filter (fun r => decide (getParam p r = v))
    let combos := (group.map restKey).dedup
    (v, qmean (combos.map (fun comboKey =>
      qmean ((group.filter (fun r => decide (restKey r = comboKey))).map Summary.best_acc)))))

/-- The `train_plot` function: collect every run's info and save a single
figure `train_progress.pdf` with the loss curve of every run in the first
subplot, the accuracy curve of every run in the second, and the accuracy axis
limited to `[0, 100]` (`ax2.set_ylim([0, 100])`). -/
def train_plot (env : Env) (runs : List Run) : Except String (List Effect) := do
  let run_infos ← mapE env.get_run_info runs
  pure [Effect.saveTrainPDF "train_progress.pdf"
    (run_infos.map RunInfo.loss) (run_infos.map RunInfo.accuracy)
    (run_infos.map RunInfo.label) (0, 100)]

/-- One iteration of the `confusion_plot` loop: load the run, run `predict`,
and save `os.path.join(run_dir, 'confusion.pdf')` showing
`confusion_matrix(targets, predictions)` with
`accuracy_score(targets, predictions)` in the title. -/
def confusion_run (env : Env) (args : Args) (run : Run) : Except String Effect := do
  let (run_info, model, loader) ← env.load_run run args.data none
  let (predictions, targets, _) := predict env.exp model loader run_info.params_cuda
  let overall_accuracy ← accuracy_score targets predictions
  let confusion ← confusion_matrix targets predictions
  pure (Effect.saveConfusionPDF (run_info.run_dir ++ ["confusion.pdf"])
    run_info.label overall_accuracy confusion)

/-- The `confusion_plot` loop over the runs. -/
def confusion_plot (env : Env) (args : Args) (runs : List Run) : Except String (List Effect) :=
  mapE (confusion_run env args) runs

/-- The `display_status` function: summarise every run, concatenate, sort by
`best_acc` descending, then write CSV to `args.output` if that is truthy and
print to stdout otherwise. -/
def display_status (env : Env) (args : Args) (runs : List Run) : Except String (List Effect) := do
  let infos ← mapE env.get_run_info runs
  let summaries ← mapE (fun i => env.get_run_summary i none) infos
  let frames ← pd_concat summaries
  let summary := sort_values_desc Summary.best_acc frames
  if py_truthy args.output then
    pure [Effect.writeCSV (args.output.getD "") summary]
  else
    pure [Effect.printTable summary]

/-- One iteration of the `offset_eval` loop: load the run with
`data_offset='all'`, run `predict`, compute the multi-offset accuracy, and
summarise with `multi_offset_acc=...`. -/
def offset_run (env : Env) (args : Args) (run : Run) : Except String Summary := do
  let (run_info, model, loader) ← env.load_run run args.data (some "all")
  let (_, targets, confidences) := predict env.exp model loader run_info.params_cuda
  let moa ← multi_offset_accuracy loader.skip loader.dataset_len targets confidences
  env.get_run_summary run_info (some moa)

/-- The `offset_eval` loop over the runs, followed by concatenation, sorting
and output, exactly as `display_status` does it but on `multi_offset_acc`. -/
def offset_eval (env : Env) (args : Args) (runs : List Run) : Except String (List Effect) := do
  let summaries ← mapE (offset_run env args) runs
  let frames ← pd_concat summaries
  let summary := sort_values_desc Summary.multi_offset_acc frames
  if py_truthy args.output then
    pure [Effect.writeCSV (args.output.getD "") summary]
  else
    pure [Effect.printTable summary]

/-- One iteration of the `ablation` summary loop:
`get_run_summary(get_run_info(r))`. -/
def ablation_run (env : Env) (r : Run) : Except String Summary := do
  env.get_run_summary (← env.get_run_info r) none

/-- The `ablation` loop over the runs, concatenation, and the four printed
pivot tables. -/
def ablation (env : Env) (runs : List Run) : Except String (List Effect) := do
  let summaries ← mapE (ablation_run env) runs
  let frames ← pd_concat summaries
  pure (ablation_params.map (fun p => Effect.printPivot p (pivot_table_mean p frames)))

/-- The `main` function: glob `<run_dir>/**/log.txt`, take the parent
directory of every match, and run the analysis whose name equals `args.type`
(five independent `if` tests, as in the source). -/
def main' (env : Env) (args : Args) : Except String (List Effect) := do
  let e1 ← if args.type = "train" then train_plot env (runs_of env args) else pure []
  let e2 ← if args.type = "confusion" then confusion_plot env args (runs_of env args) else pure []
  let e3 ← if args.type = "status" then display_status env args (runs_of env args) else pure []
  let e4 ← if args.type = "multi-eval" then offset_eval env args (runs_of env args) else pure []
  let e5 ← if args.type = "ablation" then ablation env (runs_of env args) else pure []
  pure (e1 ++ e2 ++ e3 ++ e4 ++ e5)

/-- The multi-offset accuracy as the spec phrases it, at row granularity:
truncate the targets to the first `n_samples = len(dataset) // dataset.skip`
entries, view the row-stacked confidences as a
`(skip, n_samples, num_classes)` array, i.e. as `skip` consecutive blocks of
`n_samples` confidence rows, average over the skip axis, take the per-row
argmax over classes as the prediction, and score the predictions against the
truncated targets with `accuracy_score`. -/
def spec_multi_offset_accuracy (skip dataset_len : Nat) (targets : List Nat)
    (confidences : List (List (List Rat))) : Except String Rat :=
  let n_samples := dataset_len / skip
  let rows := np_concatenate confidences
  let blocks := (List.range skip).map (fun i => (rows.drop (i * n_samples)).take n_samples)
  let averaged := (List.range n_samples).map
    (fun j => np_mean_rows (blocks.map (fun b => b.getD j [])))
  let predictions := argmax_dim1 averaged
  accuracy_score (targets.take n_samples) predictions

/-! ### Concrete fixtures used to evaluate the embedding on closed inputs -/

/-- A concrete run info. -/
def riC : RunInfo :=
  { run_dir := ["runs", "a"], loss := [3, 2], accuracy := [50, 60], label := "runA",
    best_model := "best.pth", params_cuda := false }

/-- A concrete model: it ignores its input and returns a fixed two-row logits
matrix. -/
def modelC : Model := fun _ => [[0, 1], [1, 0]]

/-- A concrete loader with a single batch. -/
def loaderC : Loader :=
  { batches := [([1], [0, 9])], dataset_len := 1, skip := 1,
    action_descriptions := ["walk", "run"] }

/-- A concrete summary row. -/
def sumC : Summary :=
  { label := "runA", best_acc := 70, multi_offset_acc := 0,
    bidirectional := 1, embed := 2, hd := 3, layers := 4 }

/-- A concrete environment with a single run directory `runs/a`. -/
def envC : Env :=
  { files := [["runs", "a", "log.txt"]],
    exp := fun q => q,
    get_run_info := fun _ => .ok riC,
    load_run := fun _ _ _ => .ok (riC, modelC, loaderC),
    get_run_summary := fun i m => .ok { sumC with label := i.label, multi_offset_acc := m.getD 0 } }

/-- An environment whose external collaborators all raise. -/
def envErr : Env :=
  { envC with
    get_run_info := fun _ => .error "boom",
    load_run := fun _ _ _ => .error "boom",
    get_run_summary := fun _ _ => .error "boom" }

/-- Concrete command-line arguments. -/
def argsC (t : String) (o : Option String) : Args :=
  { type := t, run_dir := "runs/", data := none, output := o }

/-- The run list the concrete environment's glob produces. -/
def runsC : List Run := [["runs", "a"]]

/-- The value of `display_status` on the concrete environment (output flag
absent). -/
def statusOutC : List Effect :=
  (display_status envC (argsC "status" none) runsC).toOption.getD []

/-- The value of `display_status` on the concrete environment with
`--output` set to the empty string. -/
def statusOutEmptyC : List Effect :=
  (display_status envC (argsC "status" (some "")) runsC).toOption.getD []

/-- The value of `display_status` on the concrete environment with
`--output out.csv`. -/
def statusOutFileC : List Effect :=
  (display_status envC (argsC "status" (some "out.csv")) runsC).toOption.getD []

/-- The value of `offset_eval` on the concrete environment (output flag
absent). -/
def offsetOutC : List Effect :=
  (offset_eval envC (argsC "multi-eval" none) runsC).toOption.getD []

/-- The value of `confusion_plot` on the concrete environment. -/
def confusionOutC : List Effect :=
  (confusion_plot envC (argsC "confusion" none) runsC).toOption.getD []

/-- The value of `ablation` on the concrete environment. -/
def ablationOutC : List Effect :=
  (ablation envC runsC).toOption.getD []

/-! ### General lemmas about the embedding's building blocks -/

theorem mapE_nil_ok {f : α → Except String β} {out : List β}
    (h : mapE f [] = .ok out) : out = [] := by
  simpa [mapE] using h.symm

theorem mapE_cons_ok {f : α → Except String β} {a : α} {as : List α} {out : List β}
    (h : mapE f (a :: as) = .ok out) :
    ∃ b bs, f a = .ok b ∧ mapE f as = .ok bs ∧ out = b :: bs := by
  simp only [mapE] at h
  cases hfa : f a with
  | error e => rw [hfa] at h; simp [Bind.bind, Except.bind] at h
  | ok b =>
    rw [hfa] at h
    cases hms : mapE f as with
    | error e => rw [hms] at h; simp [Bind.bind, Except.bind] at h
    | ok bs =>
      rw [hms] at h
      simp only [Bind.bind, Except.bind, pure, Except.pure, Except.ok.injEq] at h
      exact ⟨b, bs, rfl, rfl, h.symm⟩

theorem mapE_ok_length {f : α → Except String β} :
    ∀ {l : List α} {out : List β}, mapE f l = .ok out → out.length = l.length := by
  intro l
  induction l with
  | nil => intro out h; simp [mapE_nil_ok h]
  | cons a as ih =>
    intro out h
    obtain ⟨b, bs, _, hms, rfl⟩ := mapE_cons_ok h
    simp [ih hms]

theorem mapE_ok_get {f : α → Except String β} :
    ∀ {l : List α} {out : List β}, mapE f l = .ok out →
      ∀ k (hk : k < l.length) (hk2 : k < out.length),
        f (l.get ⟨k, hk⟩) = .ok (out.get ⟨k, hk2⟩) := by
  intro l
  induction l with
  | nil => intro out h k hk hk2; exact absurd hk (by simp)
  | cons a as ih =>
    intro out h k hk hk2
    obtain ⟨b, bs, hfa, hms, rfl⟩ := mapE_cons_ok h
    cases k with
    | zero => simpa using hfa
    | succ k => exact ih hms k (by simpa using hk) (by simpa using hk2)

theorem predict_foldl_aux (e : Rat → Rat) (model : Model) :
    ∀ (bs : List (Input × List Nat)) (acc : List Nat × List Nat × List (List (List Rat))),
      bs.foldl
        (fun acc b =>
          let logits := model b.1
          let confidence := softmax_dim1 e logits
          let y_hat := argmax_dim1 logits
          (acc.1 ++ [y_hat.headD 0], acc.2.1 ++ [b.2.headD 0], acc.2.2 ++ [confidence])) acc =
      (acc.1 ++ bs.map (fun b => (argmax_dim1 (model b.1)).headD 0),
       acc.2.1 ++ bs.map (fun b => b.2.headD 0),
       acc.2.2 ++ bs.map (fun b => softmax_dim1 e (model b.1))) := by
  intro bs
  induction bs with
  | nil => intro acc; simp
  | cons b bs ih =>
    intro acc
    rw [List.foldl_cons, ih]
    simp

/-- The `predict` loop is equivalent to three maps over the loader's
batches. -/
theorem predict_eq_maps (e : Rat → Rat) (model : Model) (loader : Loader) (cuda : Bool) :
    predict e model loader cuda =
      (loader.batches.map (fun b => (argmax_dim1 (model b.1)).headD 0),
       loader.batches.map (fun b => b.2.headD 0),
       loader.batches.map (fun b => softmax_dim1 e (model b.1))) := by
  unfold predict
  rw [predict_foldl_aux]
  simp

theorem sort_values_desc_perm (key : α → Rat) (l : List α) :
    List.Perm (sort_values_desc key l) l :=
  List.perm_insertionSort _ l

theorem sort_values_desc_sorted (key : α → Rat) (l : List α) :
    List.Sorted (fun a b => key b ≤ key a) (sort_values_desc key l) := by
  have ht : IsTotal α (fun a b => key b ≤ key a) := ⟨fun a b => le_total (key b) (key a)⟩
  have htr : IsTrans α (fun a b => key b ≤ key a) := ⟨fun a b c h1 h2 => le_trans h2 h1⟩
  exact List.sorted_insertionSort _ l

/-! ### Dispatch lemmas for `main'` -/

theorem main_eq_train (env : Env) (args : Args) (h : args.type = "train") :
    main' env args = train_plot env (runs_of env args) := by
  simp only [main', h]
  norm_num
  cases htp : train_plot env (runs_of env args) <;>
    simp [htp, Bind.bind, Except.bind, pure, Except.pure]

theorem main_eq_confusion (env : Env) (args : Args) (h : args.type = "confusion") :
    main' env args = confusion_plot env args (runs_of env args) := by
  simp only [main', h]
  norm_num
  cases htp : confusion_plot env args (runs_of env args) <;>
    simp [htp, Bind.bind, Except.bind, pure, Except.pure]

theorem main_eq_status (env : Env) (args : Args) (h : args.type = "status") :
    main' env args = display_status env args (runs_of env args) := by
  simp only [main', h]
  norm_num
  cases htp : display_status env args (runs_of env args) <;>
    simp [htp, Bind.bind, Except.bind, pure, Except.pure]

theorem main_eq_multi_eval (env : Env) (args : Args) (h : args.type = "multi-eval") :
    main' env args = offset_eval env args (runs_of env args) := by
  simp only [main', h]
  norm_num
  cases htp : offset_eval env args (runs_of env args) <;>
    simp [htp, Bind.bind, Except.bind, pure, Except.pure]

theorem main_eq_ablation (env : Env) (args : Args) (h : args.type = "ablation") :
    main' env args = ablation env (runs_of env args) := by
  simp only [main', h]
  norm_num
  cases htp : ablation env (runs_of env args) <;>
    simp [htp, Bind.bind, Except.bind, pure, Except.pure]

/-- A path matches the embedded `<run_dir>/**/log.txt` pattern exactly when it
is the run directory's components, an arbitrary stack of intermediate
directories, and the base name `log.txt`. -/
theorem matches_log_glob_iff (rd p : FPath) :
    matches_log_glob rd p = true ↔ ∃ mid, p = rd ++ (mid ++ ["log.txt"]) := by
  unfold matches_log_glob
  simp only [Bool.and_eq_true, decide_eq_true_eq, List.isPrefixOf_iff_prefix]
  constructor
  · rintro ⟨⟨⟨t, rfl⟩, hlen⟩, hlast⟩
    have ht : t ≠ [] := by
      intro hnil
      subst hnil
      simp at hlen
    refine ⟨t.dropLast, ?_⟩
    have hl2 : t.getLast ht = "log.txt" := by
      have := List.getLast?_append_of_ne_nil rd ht
      rw [this, List.getLast?_eq_getLast t ht] at hlast
      exact Option.some.inj hlast
    conv_lhs => rw [← List.dropLast_append_getLast ht]
    rw [hl2]
  · rintro ⟨mid, rfl⟩
    refine ⟨⟨⟨mid ++ ["log.txt"], rfl⟩, ?_⟩, ?_⟩
    · simp
    · rw [← List.append_assoc]
      simp

/-- C1: the positional `type` argument must be one of exactly
train, confusion, status, multi-eval, ablation (any other value is rejected
by argument parsing), and `main` dispatches each accepted value to exactly one
analysis function: train to `train_plot`, confusion to `confusion_plot`,
status to `display_status`, multi-eval to `offset_eval`, ablation to
`ablation`. -/
theorem c1_type_choices_and_dispatch :
    (∀ s : String, (parse_type s).isSome ↔
      s ∈ ["train", "confusion", "status", "multi-eval", "ablation"]) ∧
    (∀ (env : Env) (args : Args), args.type = "train" →
      main' env args = train_plot env (runs_of env args)) ∧
    (∀ (env : Env) (args : Args), args.type = "confusion" →
      main' env args = confusion_plot env args (runs_of env args)) ∧
    (∀ (env : Env) (args : Args), args.type = "status" →
      main' env args = display_status env args (runs_of env args)) ∧
    (∀ (env : Env) (args : Args), args.type = "multi-eval" →
      main' env args = offset_eval env args (runs_of env args)) ∧
    (∀ (env : Env) (args : Args), args.type = "ablation" →
      main' env args = ablation env (runs_of env args)) := by
  refine ⟨?_, main_eq_train, main_eq_confusion, main_eq_status,
    main_eq_multi_eval, main_eq_ablation⟩
  intro s
  unfold parse_type type_choices
  split <;> simp_all

/-- Witness for C1 at concrete inputs: the status value dispatches to
`display_status`, and an out-of-choices string is rejected. -/
theorem c1_witness :
    main' envC (argsC "status" none) =
      display_status envC (argsC "status" none) (runs_of envC (argsC "status" none)) ∧
    ((parse_type "bogus").isSome ↔
      "bogus" ∈ ["train", "confusion", "status", "multi-eval", "ablation"]) :=
  ⟨c1_type_choices_and_dispatch.2.2.2.1 envC (argsC "status" none) rfl,
   c1_type_choices_and_dispatch.1 "bogus"⟩

/-- C2: the run directories processed are exactly the parent directories of
the files matching the recursive glob `<run_dir>/**/log.txt`, and the optional
second positional argument defaults to `runs/` when omitted. -/
theorem c2_runs_are_glob_parents :
    (∀ (env : Env) (args : Args) (r : Run),
      r ∈ runs_of env args ↔
        ∃ p, p ∈ env.files ∧
          (∃ mid, p = pathComponents args.run_dir ++ (mid ++ ["log.txt"])) ∧
          r = os_path_dirname p) ∧
    parse_run_dir none = "runs/" := by
  constructor
  · intro env args r
    unfold runs_of glob_log
    simp only [List.mem_map, List.mem_filter]
    constructor
    · rintro ⟨p, ⟨hp, hm⟩, rfl⟩
      exact ⟨p, hp, (matches_log_glob_iff _ _).mp hm, rfl⟩
    · rintro ⟨p, hp, hmid, rfl⟩
      exact ⟨p, ⟨hp, (matches_log_glob_iff _ _).mpr hmid⟩, rfl⟩
  · rfl

/-- Witness for C2 at a concrete file system: `runs/a` is processed because
`runs/a/log.txt` matches the pattern. -/
theorem c2_witness :
    ["runs", "a"] ∈ runs_of envC (argsC "status" none) :=
  ((c2_runs_are_glob_parents.1 envC (argsC "status" none) ["runs", "a"]).mpr
    ⟨["runs", "a", "log.txt"], by decide, ⟨["a"], by decide⟩, rfl⟩)

/-- C6: in train mode, exactly one PDF named `train_progress.pdf` is saved,
containing the evaluation loss curve of every run and the evaluation accuracy
curve of every run, with the accuracy axis clamped to `[0, 100]`. -/
theorem c6_train_plot_single_pdf (env : Env) (runs : List Run) (infos : List RunInfo)
    (h : mapE env.get_run_info runs = .ok infos) :
    train_plot env runs = .ok [Effect.saveTrainPDF "train_progress.pdf"
      (infos.map RunInfo.loss) (infos.map RunInfo.accuracy)
      (infos.map RunInfo.label) (0, 100)] := by
  unfold train_plot
  rw [h]
  rfl

/-- Witness for C6 at the concrete environment. -/
theorem c6_witness :
    train_plot envC runsC = .ok [Effect.saveTrainPDF "train_progress.pdf"
      ([riC].map RunInfo.loss) ([riC].map RunInfo.accuracy)
      ([riC].map RunInfo.label) (0, 100)] :=
  c6_train_plot_single_pdf envC runsC [riC] rfl

/-- C7: no analysis function catches an exception: whenever the analysis
function dispatched for the given `type` fails, `main` returns the very same
error. -/
theorem c7_errors_propagate (env : Env) (args : Args) (e : String) :
    (args.type = "train" → train_plot env (runs_of env args) = .error e →
      main' env args = .error e) ∧
    (args.type = "confusion" → confusion_plot env args (runs_of env args) = .error e →
      main' env args = .error e) ∧
    (args.type = "status" → display_status env args (runs_of env args) = .error e →
      main' env args = .error e) ∧
    (args.type = "multi-eval" → offset_eval env args (runs_of env args) = .error e →
      main' env args = .error e) ∧
    (args.type = "ablation" → ablation env (runs_of env args) = .error e →
      main' env args = .error e) := by
  refine ⟨fun h he => ?_, fun h he => ?_, fun h he => ?_, fun h he => ?_, fun h he => ?_⟩
  · rw [main_eq_train env args h, he]
  · rw [main_eq_confusion env args h, he]
  · rw [main_eq_status env args h, he]
  · rw [main_eq_multi_eval env args h, he]
  · rw [main_eq_ablation env args h, he]

/-- Witness for C7: with an environment whose run-info loader raises, the
error surfaces unchanged out of `main` in status mode. -/
theorem c7_witness : main' envErr (argsC "status" none) = .error "boom" :=
  (c7_errors_propagate envErr (argsC "status" none) "boom").2.2.1 rfl rfl

/-- Bind on a successful `Except` computation runs the continuation. -/
theorem bindE_ok (a : α) (f : α → Except String β) : (Except.ok a >>= f) = f a := rfl

/-- Bind on a failed `Except` computation propagates the error. -/
theorem bindE_error (e : String) (f : α → Except String β) :
    ((Except.error e : Except String α) >>= f) = Except.error e := rfl

/-- Inversion for a successful `display_status`: the effects are a single
write or a single print of the `best_acc`-sorted concatenated summaries. -/
theorem display_status_ok {env : Env} {args : Args} {runs : List Run} {effs : List Effect}
    (h : display_status env args runs = .ok effs) :
    ∃ frames, effs =
      if py_truthy args.output
      then [Effect.writeCSV (args.output.getD "") (sort_values_desc Summary.best_acc frames)]
      else [Effect.printTable (sort_values_desc Summary.best_acc frames)] := by
  unfold display_status at h
  cases h1 : mapE env.get_run_info runs <;> rw [h1] at h
  · simp only [bindE_error] at h
    exact absurd h (by simp)
  case ok infos =>
  simp only [bindE_ok] at h
  cases h2 : mapE (fun i => env.get_run_summary i none) infos <;> rw [h2] at h
  · simp only [bindE_error] at h
    exact absurd h (by simp)
  case ok summaries =>
  simp only [bindE_ok] at h
  cases h3 : pd_concat summaries <;> rw [h3] at h
  · simp only [bindE_error] at h
    exact absurd h (by simp)
  case ok frames =>
  simp only [bindE_ok] at h
  refine ⟨frames, ?_⟩
  by_cases hc : py_truthy args.output = true
  · rw [if_pos hc] at h ⊢
    exact (Except.ok.inj h).symm
  · rw [if_neg hc] at h ⊢
    exact (Except.ok.inj h).symm

/-- Inversion for a successful `offset_eval`: the effects are a single write
or a single print of the `multi_offset_acc`-sorted concatenated summaries. -/
theorem offset_eval_ok {env : Env} {args : Args} {runs : List Run} {effs : List Effect}
    (h : offset_eval env args runs = .ok effs) :
    ∃ frames, effs =
      if py_truthy args.output
      then [Effect.writeCSV (args.output.getD "")
        (sort_values_desc Summary.multi_offset_acc frames)]
      else [Effect.printTable (sort_values_desc Summary.multi_offset_acc frames)] := by
  unfold offset_eval at h
  cases h1 : mapE (offset_run env args) runs <;> rw [h1] at h
  · simp only [bindE_error] at h
    exact absurd h (by simp)
  case ok summaries =>
  simp only [bindE_ok] at h
  cases h3 : pd_concat summaries <;> rw [h3] at h
  · simp only [bindE_error] at h
    exact absurd h (by simp)
  case ok frames =>
  simp only [bindE_ok] at h
  refine ⟨frames, ?_⟩
  by_cases hc : py_truthy args.output = true
  · rw [if_pos hc] at h ⊢
    exact (Except.ok.inj h).symm
  · rw [if_neg hc] at h ⊢
    exact (Except.ok.inj h).symm

/-- Inversion for a successful `ablation`: the effects are the four printed
pivot tables over the concatenated summaries. -/
theorem ablation_ok {env : Env} {runs : List Run} {effs : List Effect}
    (h : ablation env runs = .ok effs) :
    ∃ frames, effs =
      ablation_params.map (fun p => Effect.printPivot p (pivot_table_mean p frames)) := by
  unfold ablation at h
  cases h1 : mapE (ablation_run env) runs <;> rw [h1] at h
  · simp only [bindE_error] at h
    exact absurd h (by simp)
  case ok summaries =>
  simp only [bindE_ok] at h
  cases h3 : pd_concat summaries <;> rw [h3] at h
  · simp only [bindE_error] at h
    exact absurd h (by simp)
  case ok frames =>
  simp only [bindE_ok] at h
  exact ⟨frames, (Except.ok.inj h).symm⟩

/-- Counterexample to C5 as stated: with the `--output` flag given but equal
to the empty string, `display_status` prints the table instead of writing a
CSV file, because `if args.output:` treats the empty string as falsy. -/
theorem c5_counterexample :
    (argsC "status" (some "")).output = some "" ∧
    display_status envC (argsC "status" (some "")) runsC = .ok statusOutEmptyC ∧
    (∀ p rows, statusOutEmptyC ≠ [Effect.writeCSV p rows]) ∧
    (∃ rows, statusOutEmptyC = [Effect.printTable rows]) := by
  refine ⟨rfl, rfl, ?_, ⟨_, rfl⟩⟩
  intro p rows hcontr
  have hval : statusOutEmptyC =
      [Effect.printTable (sort_values_desc Summary.best_acc [sumC])] := rfl
  rw [hval] at hcontr
  simp at hcontr

/-- C5 as amended: in status mode and in multi-eval mode, if the
`-o (--output)` flag is given a non-empty value, the run summary table is
written as CSV to that path and nothing is printed; if the flag is absent or
given the empty string, the table is printed to stdout and no file is
written. -/
theorem c5_output_behavior (env : Env) (args : Args) (runs : List Run) (effs : List Effect)
    (h : display_status env args runs = .ok effs ∨ offset_eval env args runs = .ok effs) :
    (∀ p, args.output = some p → p ≠ "" → ∃ rows, effs = [Effect.writeCSV p rows]) ∧
    ((args.output = none ∨ args.output = some "") →
      ∃ rows, effs = [Effect.printTable rows]) := by
  have key : ∃ (key : Summary → Rat) (frames : List Summary), effs =
      if py_truthy args.output
      then [Effect.writeCSV (args.output.getD "") (sort_values_desc key frames)]
      else [Effect.printTable (sort_values_desc key frames)] := by
    rcases h with h | h
    · obtain ⟨frames, hf⟩ := display_status_ok h
      exact ⟨_, frames, hf⟩
    · obtain ⟨frames, hf⟩ := offset_eval_ok h
      exact ⟨_, frames, hf⟩
  obtain ⟨key, frames, rfl⟩ := key
  constructor
  · intro p hp hne
    have hc : py_truthy args.output = true := by simp [hp, py_truthy, hne]
    rw [if_pos hc, hp]
    exact ⟨_, rfl⟩
  · intro hcases
    have hc : py_truthy args.output = false := by
      rcases hcases with h | h <;> simp [h, py_truthy]
    rw [if_neg (by simp [hc])]
    exact ⟨_, rfl⟩

/-- Witness for the amended C5: with `--output out.csv` the concrete run of
`display_status` produces exactly one CSV write to `out.csv`. -/
theorem c5_witness :
    ∃ rows, statusOutFileC = [Effect.writeCSV "out.csv" rows] :=
  (c5_output_behavior envC (argsC "status" (some "out.csv")) runsC statusOutFileC
    (Or.inl rfl)).1 "out.csv" rfl (by decide)

/-- C8: the status-mode table is sorted in descending `best_acc` order and the
multi-eval-mode table is sorted in descending `multi_offset_acc` order before
being written or printed; each table is a permutation of the collected
summary rows. -/
theorem c8_tables_sorted (env : Env) (args : Args) (runs : List Run) (effs : List Effect) :
    (display_status env args runs = .ok effs →
      ∃ frames rows, rows = sort_values_desc Summary.best_acc frames ∧
        List.Perm rows frames ∧
        List.Sorted (fun a b : Summary => b.best_acc ≤ a.best_acc) rows ∧
        (effs = [Effect.writeCSV (args.output.getD "") rows] ∨
         effs = [Effect.printTable rows])) ∧
    (offset_eval env args runs = .ok effs →
      ∃ frames rows, rows = sort_values_desc Summary.multi_offset_acc frames ∧
        List.Perm rows frames ∧
        List.Sorted (fun a b : Summary => b.multi_offset_acc ≤ a.multi_offset_acc) rows ∧
        (effs = [Effect.writeCSV (args.output.getD "") rows] ∨
         effs = [Effect.printTable rows])) := by
  constructor
  · intro h
    obtain ⟨frames, hf⟩ := display_status_ok h
    refine ⟨frames, _, rfl, sort_values_desc_perm _ _, sort_values_desc_sorted _ _, ?_⟩
    by_cases hc : py_truthy args.output = true
    · rw [if_pos hc] at hf
      exact Or.inl hf
    · rw [if_neg hc] at hf
      exact Or.inr hf
  · intro h
    obtain ⟨frames, hf⟩ := offset_eval_ok h
    refine ⟨frames, _, rfl, sort_values_desc_perm _ _, sort_values_desc_sorted _ _, ?_⟩
    by_cases hc : py_truthy args.output = true
    · rw [if_pos hc] at hf
      exact Or.inl hf
    · rw [if_neg hc] at hf
      exact Or.inr hf

/-- Witness for C8 on the concrete status run. -/
theorem c8_witness :
    ∃ frames rows, rows = sort_values_desc Summary.best_acc frames ∧
      List.Perm rows frames ∧
      List.Sorted (fun a b : Summary => b.best_acc ≤ a.best_acc) rows ∧
      (statusOutC = [Effect.writeCSV ((argsC "status" none).output.getD "") rows] ∨
       statusOutC = [Effect.printTable rows]) :=
  (c8_tables_sorted envC (argsC "status" none) runsC statusOutC).1 rfl

/-- C10: in ablation mode the `-o (--output)` flag has no effect: `main`
produces the same result whatever the flag's value, and a successful
`ablation` prints exactly the four per-hyper-parameter mean `best_acc`
tables and writes no file. -/
theorem c10_ablation_ignores_output :
    (∀ (env : Env) (rd : String) (d o1 o2 : Option String),
      main' env { type := "ablation", run_dir := rd, data := d, output := o1 } =
      main' env { type := "ablation", run_dir := rd, data := d, output := o2 }) ∧
    (∀ (env : Env) (runs : List Run) (effs : List Effect), ablation env runs = .ok effs →
      (∃ frames, effs =
        [Effect.printPivot "bidirectional" (pivot_table_mean "bidirectional" frames),
         Effect.printPivot "embed" (pivot_table_mean "embed" frames),
         Effect.printPivot "hd" (pivot_table_mean "hd" frames),
         Effect.printPivot "layers" (pivot_table_mean "layers" frames)]) ∧
      ∀ eff ∈ effs, ∀ path rows, eff ≠ Effect.writeCSV path rows) := by
  constructor
  · intro env rd d o1 o2
    rw [main_eq_ablation _ _ rfl, main_eq_ablation _ _ rfl]
    rfl
  · intro env runs effs h
    obtain ⟨frames, hf⟩ := ablation_ok h
    subst hf
    refine ⟨⟨frames, by simp [ablation_params]⟩, ?_⟩
    intro eff heff path rows
    simp only [ablation_params, List.map_cons, List.map_nil, List.mem_cons,
      List.not_mem_nil, or_false] at heff
    rcases heff with rfl | rfl | rfl | rfl <;> simp

/-- Witness for C10: on the concrete environment, changing `--output` does not
change `main`'s result in ablation mode, and the concrete ablation run prints
the four pivot tables. -/
theorem c10_witness :
    main' envC { type := "ablation", run_dir := "runs/", data := none, output := some "x.csv" } =
      main' envC { type := "ablation", run_dir := "runs/", data := none, output := none } ∧
    ∃ frames, ablationOutC =
      [Effect.printPivot "bidirectional" (pivot_table_mean "bidirectional" frames),
       Effect.printPivot "embed" (pivot_table_mean "embed" frames),
       Effect.printPivot "hd" (pivot_table_mean "hd" frames),
       Effect.printPivot "layers" (pivot_table_mean "layers" frames)] :=
  ⟨c10_ablation_ignores_output.1 envC "runs/" none (some "x.csv") none,
   (c10_ablation_ignores_output.2 envC runsC ablationOutC rfl).1⟩

/-- Inversion for a successful `confusion_run`: the run was loaded, and the
saved figure shows exactly `confusion_matrix(targets, predictions)` with
`accuracy_score(targets, predictions)` for `predict`'s outputs. -/
theorem confusion_run_ok {env : Env} {args : Args} {run : Run} {eff : Effect}
    (h : confusion_run env args run = .ok eff) :
    ∃ ri model loader acc cm,
      env.load_run run args.data none = .ok (ri, model, loader) ∧
      accuracy_score (predict env.exp model loader ri.params_cuda).2.1
        (predict env.exp model loader ri.params_cuda).1 = .ok acc ∧
      confusion_matrix (predict env.exp model loader ri.params_cuda).2.1
        (predict env.exp model loader ri.params_cuda).1 = .ok cm ∧
      eff = Effect.saveConfusionPDF (ri.run_dir ++ ["confusion.pdf"]) ri.label acc cm := by
  unfold confusion_run at h
  cases hlr : env.load_run run args.data none <;> rw [hlr] at h
  · simp only [bindE_error] at h
    exact absurd h (by simp)
  case ok trip =>
  obtain ⟨ri, model, loader⟩ := trip
  simp only [bindE_ok] at h
  rcases hp : predict env.exp model loader ri.params_cuda with ⟨predictions, targets, confs⟩
  rw [hp] at h
  simp only [bindE_ok, bindE_error] at h
  cases hacc : accuracy_score targets predictions <;> rw [hacc] at h
  · simp only [bindE_error] at h
    exact absurd h (by simp)
  case ok acc =>
  simp only [bindE_ok] at h
  cases hcm : confusion_matrix targets predictions <;> rw [hcm] at h
  · simp only [bindE_error] at h
    exact absurd h (by simp)
  case ok cm =>
  simp only [bindE_ok] at h
  refine ⟨ri, model, loader, acc, cm, rfl, ?_, ?_, ?_⟩
  · rw [hp]
    exact hacc
  · rw [hp]
    exact hcm
  · exact (Except.ok.inj h).symm

/-- C4: in confusion mode, every saved figure shows exactly sklearn's
`confusion_matrix(targets, predictions)` with
`accuracy_score(targets, predictions)` in the title, for the targets and
predictions produced by `predict` on that run's loader. -/
theorem c4_confusion_plot_content (env : Env) (args : Args) (runs : List Run)
    (effs : List Effect) (h : confusion_plot env args runs = .ok effs) :
    effs.length = runs.length ∧
    ∀ k (hk : k < runs.length) (hk2 : k < effs.length),
      ∃ ri model loader acc cm,
        env.load_run (runs.get ⟨k, hk⟩) args.data none = .ok (ri, model, loader) ∧
        accuracy_score (predict env.exp model loader ri.params_cuda).2.1
          (predict env.exp model loader ri.params_cuda).1 = .ok acc ∧
        confusion_matrix (predict env.exp model loader ri.params_cuda).2.1
          (predict env.exp model loader ri.params_cuda).1 = .ok cm ∧
        effs.get ⟨k, hk2⟩ =
          Effect.saveConfusionPDF (ri.run_dir ++ ["confusion.pdf"]) ri.label acc cm := by
  unfold confusion_plot at h
  exact ⟨mapE_ok_length h, fun k hk hk2 => confusion_run_ok (mapE_ok_get h k hk hk2)⟩

/-- Witness for C4 on the concrete environment. -/
theorem c4_witness :
    confusionOutC.length = runsC.length ∧
    ∃ ri model loader acc cm,
      envC.load_run (runsC.get ⟨0, by decide⟩) (argsC "confusion" none).data none =
        .ok (ri, model, loader) ∧
      accuracy_score (predict envC.exp model loader ri.params_cuda).2.1
        (predict envC.exp model loader ri.params_cuda).1 = .ok acc ∧
      confusion_matrix (predict envC.exp model loader ri.params_cuda).2.1
        (predict envC.exp model loader ri.params_cuda).1 = .ok cm ∧
      confusionOutC.get ⟨0, by decide⟩ =
        Effect.saveConfusionPDF (ri.run_dir ++ ["confusion.pdf"]) ri.label acc cm := by
  have hmain := c4_confusion_plot_content envC (argsC "confusion" none) runsC confusionOutC rfl
  exact ⟨hmain.1, hmain.2 0 (by decide) (by decide)⟩

/-- Counterexample to C9 as stated: a batch can hold several samples, and
the entry appended to `predictions` is `y_hat.data[0]`, only the first
component of `torch.max(logits, 1)`'s index vector, not that whole argmax
vector: here the batch's dim-1 argmax is `[1, 0]` while the recorded entry is
`1`. -/
theorem c9_counterexample :
    (predict envC.exp modelC loaderC false).1 = [1] ∧
    argmax_dim1 (modelC ([1] : Input)) = [1, 0] ∧
    ¬ ∀ i (hi : i < (argmax_dim1 (modelC ([1] : Input))).length),
        (argmax_dim1 (modelC ([1] : Input))).get ⟨i, hi⟩ =
          ((predict envC.exp modelC loaderC false).1).headD 0 := by
  refine ⟨rfl, rfl, fun hall => ?_⟩
  exact absurd (hall 1 (by decide)) (by decide)

/-- C9 as amended: `predict` returns three lists of equal length with exactly
one entry per batch; each predictions entry is the first component of the
argmax over dimension 1 of the model's logits for that batch, and each
confidences entry is the softmax over dimension 1 of those logits. -/
theorem c9_predict_shape (e : Rat → Rat) (model : Model) (loader : Loader) (cuda : Bool) :
    (predict e model loader cuda).1.length = loader.batches.length ∧
    (predict e model loader cuda).2.1.length = loader.batches.length ∧
    (predict e model loader cuda).2.2.length = loader.batches.length ∧
    ∀ k, k < loader.batches.length →
      (predict e model loader cuda).1.getD k 0 =
        (argmax_dim1 (model (loader.batches.getD k ([], [])).1)).headD 0 ∧
      (predict e model loader cuda).2.2.getD k [] =
        softmax_dim1 e (model (loader.batches.getD k ([], [])).1) := by
  refine ⟨?_, ?_, ?_, ?_⟩ <;> simp only [predict_eq_maps]
  · simp
  · simp
  · simp
  · intro k hk
    constructor <;>
      simp [List.getD_eq_getElem?_getD, List.getElem?_map,
        List.getElem?_eq_getElem hk]

/-- Witness for the amended C9 on the concrete environment. -/
theorem c9_witness :
    (predict envC.exp modelC loaderC false).1.getD 0 0 =
      (argmax_dim1 (modelC (loaderC.batches.getD 0 ([], [])).1)).headD 0 ∧
    (predict envC.exp modelC loaderC false).2.2.getD 0 [] =
      softmax_dim1 envC.exp (modelC (loaderC.batches.getD 0 ([], [])).1) :=
  (c9_predict_shape envC.exp modelC loaderC false).2.2.2 0 (by decide)

/-- Length of the flattening of uniformly sized rows. -/
theorem flatten_length_uniform {c : Nat} :
    ∀ (rows : List (List Rat)), (∀ r ∈ rows, r.length = c) →
      rows.flatten.length = rows.length * c := by
  intro rows
  induction rows with
  | nil => intro _; simp
  | cons r rs ih =>
    intro hlen
    have hr : r.length = c := hlen r (by simp)
    have hrs := ih (fun x hx => hlen x (by simp [hx]))
    simp only [List.flatten_cons, List.length_append, List.length_cons, hr, hrs]
    ring

/-- Reading `c` scalars at flat offset `k * c` out of the flattening of
uniformly sized rows recovers the `k`-th row: this is how a row-major numpy
reshape addresses the stacked data. -/
theorem flatten_extract {c : Nat} :
    ∀ (rows : List (List Rat)) (k : Nat), (∀ r ∈ rows, r.length = c) →
      k < rows.length → (rows.flatten.drop (k * c)).take c = rows.getD k [] := by
  intro rows
  induction rows with
  | nil => intro k _ hk; simp at hk
  | cons r rs ih =>
    intro k hlen hk
    have hr : r.length = c := hlen r (by simp)
    cases k with
    | zero =>
      simp only [Nat.zero_mul, List.drop_zero, List.flatten_cons, List.getD_cons_zero]
      rw [← hr, List.take_left]
    | succ k =>
      have hmul : (k + 1) * c = r.length + k * c := by rw [hr]; ring
      rw [List.flatten_cons, hmul, List.drop_append, List.getD_cons_succ]
      exact ih k (fun x hx => hlen x (by simp [hx])) (by simpa using hk)

/-- Reading entry `j` of the `n`-row block starting at row `i * n` is reading
row `i * n + j` of the stack. -/
theorem getD_take_drop (rows : List (List Rat)) (i n j : Nat) (hj : j < n) :
    ((rows.drop (i * n)).take n).getD j [] = rows.getD (i * n + j) [] := by
  rw [List.getD_eq_getElem?_getD, List.getD_eq_getElem?_getD,
    List.getElem?_take_of_lt hj, List.getElem?_drop]

/-- C3: in multi-eval mode the per-run multi-offset accuracy is computed by
truncating the targets to `n_samples = len(dataset) // dataset.skip`,
reshaping the concatenated per-sample confidences to shape
`(skip, n_samples, num_classes)`, averaging over the skip axis, taking the
argmax over classes as the prediction, and scoring against the truncated
targets with `accuracy_score`: the code's flat row-major reshape agrees with
that description whenever the data's shape fits it (uniform rows of `c`
class scores, `skip * n_samples` stacked rows). -/
theorem c3_multi_offset_matches_spec (skip dataset_len : Nat) (targets : List Nat)
    (confidences : List (List (List Rat))) (c : Nat)
    (hrows : ∀ r ∈ np_concatenate confidences, r.length = c)
    (hlen : (np_concatenate confidences).length = skip * (dataset_len / skip))
    (hpos : 0 < skip * (dataset_len / skip)) :
    multi_offset_accuracy skip dataset_len targets confidences =
      spec_multi_offset_accuracy skip dataset_len targets confidences := by
  have htot : (np_concatenate confidences).flatten.length =
      skip * (dataset_len / skip) * c := by
    rw [flatten_length_uniform _ hrows, hlen]
  have hcond : skip * (dataset_len / skip) ≠ 0 ∧
      (np_concatenate confidences).flatten.length % (skip * (dataset_len / skip)) = 0 := by
    refine ⟨Nat.pos_iff_ne_zero.mp hpos, ?_⟩
    rw [htot]
    exact Nat.mul_mod_right _ _
  have hcdiv : (np_concatenate confidences).flatten.length /
      (skip * (dataset_len / skip)) = c := by
    rw [htot]
    exact Nat.mul_div_right c hpos
  have hreshape : reshape_mean0 skip (dataset_len / skip) (np_concatenate confidences) =
      .ok ((List.range (dataset_len / skip)).map (fun j =>
        np_mean_rows ((List.range skip).map (fun i =>
          ((np_concatenate confidences).flatten.drop
            ((i * (dataset_len / skip) + j) * c)).take c)))) := by
    simp only [reshape_mean0]
    rw [if_pos hcond, hcdiv]
  have hM : (List.range (dataset_len / skip)).map (fun j =>
        np_mean_rows ((List.range skip).map (fun i =>
          ((np_concatenate confidences).flatten.drop
            ((i * (dataset_len / skip) + j) * c)).take c))) =
      (List.range (dataset_len / skip)).map (fun j =>
        np_mean_rows (((List.range skip).map (fun i =>
          ((np_concatenate confidences).drop (i * (dataset_len / skip))).take
            (dataset_len / skip))).map (fun b => b.getD j []))) := by
    apply List.map_eq_map_iff.mpr
    intro j hj
    rw [List.mem_range] at hj
    rw [List.map_map]
    congr 1
    apply List.map_eq_map_iff.mpr
    intro i hi
    rw [List.mem_range] at hi
    have hidx : i * (dataset_len / skip) + j < (np_concatenate confidences).length := by
      rw [hlen]
      calc i * (dataset_len / skip) + j
          < i * (dataset_len / skip) + (dataset_len / skip) := Nat.add_lt_add_left hj _
        _ = (i + 1) * (dataset_len / skip) := by ring
        _ ≤ skip * (dataset_len / skip) := Nat.mul_le_mul_right _ hi
    rw [flatten_extract _ _ hrows hidx]
    simp only [Function.comp]
    exact (getD_take_drop _ i _ j hj).symm
  simp only [multi_offset_accuracy, spec_multi_offset_accuracy]
  rw [hreshape, bindE_ok, hM]

/-- Witness for C3 at a concrete well-shaped input: four stacked confidence
rows of two classes, skip 2, dataset length 4. -/
theorem c3_witness :
    (∀ r ∈ np_concatenate [[[1, 0]], [[0, 1]], [[3, 0]], [[0, 3]]], r.length = 2) ∧
    (np_concatenate [[[1, 0]], [[0, 1]], [[3, 0]], [[0, 3]]]).length = 2 * (4 / 2) ∧
    0 < 2 * (4 / 2) ∧
    multi_offset_accuracy 2 4 [0, 1, 0, 1] [[[1, 0]], [[0, 1]], [[3, 0]], [[0, 3]]] =
      spec_multi_offset_accuracy 2 4 [0, 1, 0, 1] [[[1, 0]], [[0, 1]], [[3, 0]], [[0, 3]]] :=
  ⟨by decide, by decide, by decide,
   c3_multi_offset_matches_spec 2 4 [0, 1, 0, 1] _ 2 (by decide) (by decide) (by decide)⟩
